import Mathlib

/-!
Verification of the redis-orm-lite document/query engine.

Documents are JSON objects mapping field names to scalars or arrays of
scalars (spec data model); JSON numbers are modelled as integers.  The
key-value store is an association list of key/document pairs (the JSON
codec round-trips on this value space, so stored values are kept decoded;
an empty raw value, which the scanners skip, is not representable here).
JavaScript comparison semantics (abstract relational comparison, strict
equality) are embedded explicitly: `none : Option Value` plays the role of
`undefined`.
-/

set_option autoImplicit false

namespace RedisOrmLite

/-- A JSON scalar field value. -/
inductive Scalar where
  | null
  | bool (b : Bool)
  | num (n : Int)
  | str (s : String)
deriving DecidableEq

/-- A document field value: a scalar or an array of scalars. -/
inductive Value where
  | scalar (s : Scalar)
  | arr (xs : List Scalar)
deriving DecidableEq

/-- A document: an ordered association of field names to values
(JavaScript objects have no duplicate keys; lookup takes the first hit). -/
abbrev Doc := List (String × Value)

/-- The key-value store: keys mapped to decoded documents. -/
abbrev Store := List (String × Doc)

/-- First-match association-list lookup (JS object property access). -/
def lookupF {β : Type} (k : String) : List (String × β) → Option β
  | [] => none
  | e :: es => if e.1 = k then some e.2 else lookupF k es

/-- Whether an association list has an entry with the given key. -/
def hasKey {β : Type} (k : String) : List (String × β) → Bool
  | [] => false
  | e :: es => if e.1 = k then true else hasKey k es

/-- `doc[field]`: `none` is JavaScript `undefined` (field absent). -/
def getField (d : Doc) (f : String) : Option Value :=
  lookupF f d

/-- JS `ToString` of a scalar as an array element (join semantics:
`null` becomes the empty string). -/
def elemToString : Scalar → String
  | .null => ""
  | .bool b => if b then "true" else "false"
  | .num n => toString n
  | .str s => s

/-- Integer-string parsing used by JS `ToNumber` on strings: the empty
(trimmed) string is 0, an optionally signed digit string is its value,
anything else is NaN (`none`).  Fractional/exponent/hex literals are
outside the integer value model. -/
def parseNumStr (s : String) : Option Int :=
  let t := s.trim
  if t = "" then some 0
  else if t.startsWith "-" then (digitsVal (t.drop 1).toList).map (fun n => -n)
  else if t.startsWith "+" then digitsVal (t.drop 1).toList
  else digitsVal t.toList
where
  digitsVal : List Char → Option Int
    | [] => none
    | cs => cs.foldl
        (fun acc c =>
          match acc with
          | none => none
          | some a => if c.isDigit then some (a * 10 + ((c.toNat : Int) - 48)) else none)
        (some 0)

/-- JS `ToNumber` on a defined value; `none` is NaN.  An array coerces via
`ToPrimitive` (comma-joined string): `[]` is 0, a singleton coerces through
its string form, longer arrays contain a comma and are NaN. -/
def toNumber : Value → Option Int
  | .scalar .null => some 0
  | .scalar (.bool b) => some (if b then 1 else 0)
  | .scalar (.num n) => some n
  | .scalar (.str s) => parseNumStr s
  | .arr [] => some 0
  | .arr [x] => parseNumStr (elemToString x)
  | .arr (_ :: _ :: _) => none

/-- Numeric branch of the abstract relational comparison; `none` operands
are NaN and make the result undefined (`none`). -/
def jsNumCmp (a b : Option Int) : Option Bool :=
  match a with
  | none => none
  | some x =>
    match b with
    | none => none
    | some y => some (decide (x < y))

/-- Whether a (possibly undefined) value is a string. -/
def isStrV : Option Value → Bool
  | some (.scalar (.str _)) => true
  | _ => false

/-- The string payload of a string value (default irrelevant elsewhere). -/
def strOfV : Option Value → String
  | some (.scalar (.str s)) => s
  | _ => ""

/-- ECMAScript abstract relational comparison `x < y`: both strings gives
lexicographic order, otherwise both sides coerce with `ToNumber`; a NaN on
either side yields `none` (which the operators read as `false`). `none`
input is `undefined` (ToNumber NaN). -/
def jsCmpLt (x y : Option Value) : Option Bool :=
  if isStrV x && isStrV y then some (decide (strOfV x < strOfV y))
  else jsNumCmp (x.bind toNumber) (y.bind toNumber)

/-- JS `x < y`. -/
def jsLt (x y : Option Value) : Bool := (jsCmpLt x y).getD false

/-- JS `x > y` (relational comparison with swapped operands). -/
def jsGt (x y : Option Value) : Bool := (jsCmpLt y x).getD false

/-- JS `x <= y`: `!(y < x)`, false when the comparison is undefined. -/
def jsLe (x y : Option Value) : Bool :=
  match jsCmpLt y x with
  | none => false
  | some r => !r

/-- JS `x >= y`: `!(x < y)`, false when the comparison is undefined. -/
def jsGe (x y : Option Value) : Bool :=
  match jsCmpLt x y with
  | none => false
  | some r => !r

/-- JS strict equality on defined values.  Arrays compare by reference:
a decoded document's array and a query literal array are always distinct
objects, hence never strictly equal. -/
def strictEqV (v w : Value) : Bool :=
  match v, w with
  | .scalar a, .scalar b => a == b
  | _, _ => false

/-- JS `value === cond` where `value` may be `undefined` and `cond` is a
present literal. -/
def strictEqOV (x : Option Value) (v : Value) : Bool :=
  match x with
  | none => false
  | some w => strictEqV w v

/-- JS `operand.includes(value)` guarded by `Array.isArray(operand)`:
false when the operand is not an array.  Membership is SameValueZero,
which coincides with strict equality on this value space (no NaN); an
absent value or an array value is never a member of a scalar array. -/
def arrIncludes (operand : Value) (x : Option Value) : Bool :=
  match operand, x with
  | .arr xs, some (.scalar s) => xs.contains s
  | _, _ => false

/-- A per-field query condition: a literal (strict equality) or an
operator object, kept as the insertion-ordered list of its keys. -/
inductive Cond where
  | lit (v : Value)
  | ops (l : List (String × Value))
deriving DecidableEq

/-- A query specification: field name to condition, conjunctive. -/
abbrev Query := List (String × Cond)

/-- One operator check of `Model._matchesQuery` (part_000): the `switch`
over the operator key; the `default` arm makes any unrecognized key a
non-match for the whole document (fail-closed). -/
def evalOp (value : Option Value) (k : String) (operand : Value) : Bool :=
  if k = "$gt" then jsGt value (some operand)
  else if k = "$gte" then jsGe value (some operand)
  else if k = "$lt" then jsLt value (some operand)
  else if k = "$lte" then jsLe value (some operand)
  else if k = "$in" then arrIncludes operand value
  else if k = "$nin" then !arrIncludes operand value
  else if k = "$ne" then !strictEqOV value operand
  else false

/-- Field-condition evaluation of `Model._matchesQuery` (part_000):
an operator object must pass every operator key in insertion order;
a literal is strict equality. -/
def matchCond (value : Option Value) : Cond → Bool
  | .lit v => strictEqOV value v
  | .ops l => l.all (fun e => evalOp value e.1 e.2)

/-- `Model._matchesQuery` (part_000): conjunction over every field of the
query specification. -/
def Model.matchesQuery (d : Doc) (q : Query) : Bool :=
  q.all (fun e => matchCond (getField d e.1) e.2)

/-- One optional-operator check of `RedisModel._matches` (part_001):
`op.$k !== undefined && !check` fails the document; an absent key passes. -/
def checkOp (l : List (String × Value)) (k : String) (check : Value → Bool) : Bool :=
  match lookupF k l with
  | none => true
  | some opd => check opd

/-- Operator-object evaluation of `RedisModel._matches` (part_001): only
the seven recognized `$`-fields are consulted; any other key in the
object is silently ignored (fail-open).  `$in`/`$nin` operands are arrays
by the TypeScript type. -/
def RedisModel.matchOps (value : Option Value) (l : List (String × Value)) : Bool :=
  checkOp l "$gt" (fun o => jsGt value (some o)) &&
  checkOp l "$gte" (fun o => jsGe value (some o)) &&
  checkOp l "$lt" (fun o => jsLt value (some o)) &&
  checkOp l "$lte" (fun o => jsLe value (some o)) &&
  checkOp l "$in" (fun o => arrIncludes o value) &&
  checkOp l "$nin" (fun o => !arrIncludes o value) &&
  checkOp l "$ne" (fun o => !strictEqOV value o)

/-- `RedisModel._matches` (part_001): conjunction over every query field;
`value !== cond` fails a literal condition. -/
def RedisModel.matches (d : Doc) (q : Query) : Bool :=
  q.all (fun e =>
    match e.2 with
    | .lit v => strictEqOV (getField d e.1) v
    | .ops l => RedisModel.matchOps (getField d e.1) l)

/-- `redis.get(key)`: the value stored under a key. -/
def storeGet (s : Store) (k : String) : Option Doc :=
  lookupF k s

/-- `redis.set(key, value)`: overwrite the entry with this key if one
exists, otherwise append a new entry. -/
def storeSet (s : Store) (k : String) (d : Doc) : Store :=
  if hasKey k s then s.map (fun e => if e.1 = k then (k, d) else e)
  else s ++ [(k, d)]

/-- `` `${name}:${id}` ``: the computed document key. -/
def modelKey (name id : String) : String :=
  name ++ ":" ++ id

/-- Whether `p` is a prefix of `s` — the keys matched by the redis
pattern `p ++ "*"` — computed on the character lists. -/
def strHasPrefix (p s : String) : Bool :=
  p.toList.isPrefixOf s.toList

/-- The collection scanner: `redis.keys(name + ":*")` followed by
`get`/decode of each key, in store enumeration order. -/
def scanDocs (name : String) (s : Store) : List Doc :=
  (s.filter (fun e => strHasPrefix (name ++ ":") e.1)).map (fun e => e.2)

/-- The materialized results of `Model.find(query)`'s data fetcher
(part_000): scan and keep the documents the predicate accepts. -/
def Model.findDocs (name : String) (s : Store) (q : Query) : List Doc :=
  (scanDocs name s).filter (fun d => Model.matchesQuery d q)

/-- `RedisModel.find` (part_001): scan and filter with `_matches`. -/
def RedisModel.find (name : String) (s : Store) (q : Query) : List Doc :=
  (scanDocs name s).filter (fun d => RedisModel.matches d q)

/-- `RedisModel.findOne` (part_001): return the first scanned document
the predicate accepts, `null` when none does. -/
def RedisModel.findOne (name : String) (s : Store) (q : Query) : Option Doc :=
  (scanDocs name s).find? (fun d => RedisModel.matches d q)

/-- The `QueryBuilder` state: recorded sort/limit/skip intents. -/
structure QueryBuilder where
  sortSpec : Option (List (String × Int))
  limitN : Option Int
  skipN : Int
deriving DecidableEq

/-- A freshly constructed builder: `_sort = null`, `_limit = null`,
`_skip = 0`. -/
def QueryBuilder.init : QueryBuilder :=
  ⟨none, none, 0⟩

/-- `.sort(fields)`: record the sort specification, last call wins. -/
def QueryBuilder.sort (b : QueryBuilder) (fields : List (String × Int)) : QueryBuilder :=
  { b with sortSpec := some fields }

/-- `.limit(n)`: record the limit, last call wins. -/
def QueryBuilder.limit (b : QueryBuilder) (n : Int) : QueryBuilder :=
  { b with limitN := some n }

/-- `.skip(n)`: record the skip, last call wins. -/
def QueryBuilder.skip (b : QueryBuilder) (n : Int) : QueryBuilder :=
  { b with skipN := n }

/-- The multi-key sort comparator: first key on which the field values
compare unequal decides, scaled by the direction; ties fall through. -/
def sortCmp : List (String × Int) → Doc → Doc → Int
  | [], _, _ => 0
  | (k, dir) :: rest, a, b =>
    if jsLt (getField a k) (getField b k) then -1 * dir
    else if jsGt (getField a k) (getField b k) then 1 * dir
    else sortCmp rest a b

/-- `results.sort(comparator)`: a stable sort placing `a` before `b`
when the comparator is nonpositive. -/
def jsSortBy (spec : List (String × Int)) (l : List Doc) : List Doc :=
  l.mergeSort (fun a b => sortCmp spec a b ≤ 0)

/-- `results.slice(0, n)`: a negative end counts back from the length. -/
def jsSliceTo (l : List Doc) (n : Int) : List Doc :=
  if n < 0 then l.take ((l.length : Int) + n).toNat else l.take n.toNat

/-- `QueryBuilder.exec` on already-materialized results: sort (when set),
then `slice(skip)` (when positive), then `slice(0, limit)` (when set). -/
def QueryBuilder.exec (b : QueryBuilder) (results : List Doc) : List Doc :=
  let r1 := match b.sortSpec with
    | none => results
    | some spec => jsSortBy spec results
  let r2 := if b.skipN > 0 then r1.drop b.skipN.toNat else r1
  match b.limitN with
  | none => r2
  | some n => jsSliceTo r2 n

/-- `Model.findOne` (part_000): `find(query).limit(1).exec()`, then the
first element or `null`. -/
def Model.findOne (name : String) (s : Store) (q : Query) : Option Doc :=
  (QueryBuilder.exec (QueryBuilder.init.limit 1) (Model.findDocs name s q)).head?

/-- Shallow merge `{...d, ...u}` / `Object.assign(d, u)`: existing fields
keep their position and take the update's value when supplied; fields new
in the update are appended in the update's order. -/
def mergeDocs (d u : Doc) : Doc :=
  d.map (fun e =>
    match lookupF e.1 u with
    | some v => (e.1, v)
    | none => e)
    ++ u.filter (fun e => !hasKey e.1 d)

/-- `Model.update(id, data)` (part_000): get, fail fast with `null` and
no write when the key is absent, else merge-set and return the merged
document.  The pair is (returned value, store after the call). -/
def Model.update (name : String) (s : Store) (id : String) (data : Doc) :
    Option Doc × Store :=
  match storeGet s (modelKey name id) with
  | none => (none, s)
  | some doc =>
    let m := mergeDocs doc data
    (some m, storeSet s (modelKey name id) m)

/-- `!doc.id` guard of part_001: `undefined`, `null` and the empty string
are falsy; the type restricts `id` to strings. -/
def docIdStr (d : Doc) : Option String :=
  match getField d "id" with
  | some (.scalar (.str s)) => if s = "" then none else some s
  | _ => none

/-- `RedisModel.findOneAndUpdate(query, update, {returnNew})` (part_001):
find the first match, merge-set it, return the pre-update document unless
`returnNew` is set. -/
def RedisModel.findOneAndUpdate (name : String) (s : Store) (q : Query)
    (update : Doc) (returnNew : Bool) : Option Doc × Store :=
  match RedisModel.findOne name s q with
  | none => (none, s)
  | some doc =>
    match docIdStr doc with
    | none => (none, s)
    | some i =>
      let updated := mergeDocs doc update
      (if returnNew then some updated else some doc,
       storeSet s (modelKey name i) updated)

/-- `doc.id ?? fresh` (part_001 create): nullish coalescing keeps any
present string id, the empty string included; `undefined`/`null` fall
back (non-string ids are excluded by the type `id?: string`). -/
def docIdNullish (d : Doc) : Option String :=
  match getField d "id" with
  | some (.scalar (.str s)) => some s
  | _ => none

/-- `doc.id || fresh` (src variant create): the logical-or also treats
the empty string as absent. -/
def docIdFalsy (d : Doc) : Option String :=
  match getField d "id" with
  | some (.scalar (.str s)) => if s = "" then none else some s
  | _ => none

/-- `RedisModel.create` (part_001): `id = doc.id ?? uuidv4()`, persist
and return `{...doc, id}`.  The generated identifier is passed in as
`fresh` (the uuid generator is the external collaborator). -/
def RedisModel.create (name : String) (s : Store) (doc : Doc) (fresh : String) :
    Doc × Store :=
  let id := (docIdNullish doc).getD fresh
  let newDoc := mergeDocs doc [("id", .scalar (.str id))]
  (newDoc, storeSet s (modelKey name id) newDoc)

/-- `RedisModel.create` of the src variant: `id = doc.id || uuidv4()`,
persist and return `{...doc, id}`. -/
def RedisModelSrc.create (name : String) (s : Store) (doc : Doc) (fresh : String) :
    Doc × Store :=
  let id := (docIdFalsy doc).getD fresh
  let newDoc := mergeDocs doc [("id", .scalar (.str id))]
  (newDoc, storeSet s (modelKey name id) newDoc)

/-- `doc[field] = v`: property assignment keeps an existing field's
position, otherwise appends. -/
def assignField (d : Doc) (f : String) (v : Value) : Doc :=
  if hasKey f d then d.map (fun e => if e.1 = f then (f, v) else e)
  else d ++ [(f, v)]

/-- `Model.create` (part_000): always generate a fresh id, start from
`{_id: id}`, then assign every schema-declared field with the supplied
value or `null` (`data[field] ?? null`), persist under the generated id
and return the document. -/
def Model.create (name : String) (schemaFields : List String) (s : Store)
    (data : Doc) (fresh : String) : Doc × Store :=
  let doc := schemaFields.foldl
    (fun d f => assignField d f ((getField data f).getD (.scalar .null)))
    [("_id", .scalar (.str fresh))]
  (doc, storeSet s (modelKey name fresh) doc)

/-! ### Association-list lemmas -/

theorem lookupF_nil {β : Type} (k : String) : lookupF k ([] : List (String × β)) = none := rfl

theorem lookupF_cons {β : Type} (k : String) (e : String × β) (es : List (String × β)) :
    lookupF k (e :: es) = if e.1 = k then some e.2 else lookupF k es := rfl

theorem hasKey_eq_isSome {β : Type} (k : String) (l : List (String × β)) :
    hasKey k l = (lookupF k l).isSome := by
  induction l with
  | nil => rfl
  | cons e es ih =>
    simp only [hasKey, lookupF]
    by_cases h : e.1 = k
    · simp [h]
    · simp [h, ih]

theorem lookupF_append {β : Type} (k : String) (l₁ l₂ : List (String × β)) :
    lookupF k (l₁ ++ l₂) = (lookupF k l₁).or (lookupF k l₂) := by
  induction l₁ with
  | nil => rfl
  | cons e es ih =>
    simp only [List.cons_append, lookupF]
    by_cases h : e.1 = k
    · simp [h, Option.or]
    · simp [h, ih]

theorem lookupF_map_overwrite {β : Type} (g k : String) (d : β) (s : List (String × β)) :
    lookupF g (s.map (fun e => if e.1 = k then (k, d) else e)) =
      if g = k then (lookupF k s).map (fun _ => d) else lookupF g s := by
  induction s with
  | nil => by_cases h : g = k <;> simp [h, lookupF]
  | cons e es ih =>
    obtain ⟨a, w⟩ := e
    by_cases hak : a = k
    · subst hak
      by_cases hga : g = a
      · subst hga
        simp [lookupF, ih]
      · have hag : ¬ a = g := fun hh => hga hh.symm
        simp [lookupF, hga, hag, ih]
    · by_cases hgk : g = k
      · subst hgk
        simp [lookupF, hak, ih]
      · simp [lookupF, hak, hgk, ih]

theorem lookupF_mem_isSome {β : Type} (k : String) (v : β) (l : List (String × β))
    (h : (k, v) ∈ l) : ∃ w, lookupF k l = some w := by
  induction l with
  | nil => cases h
  | cons e es ih =>
    rcases List.mem_cons.mp h with he | he
    · exact ⟨v, by simp [lookupF, ← he]⟩
    · by_cases hk : e.1 = k
      · exact ⟨e.2, by simp [lookupF, hk]⟩
      · obtain ⟨w, hw⟩ := ih he
        exact ⟨w, by simp [lookupF, hk, hw]⟩

theorem lookupF_filter_of_pred {β : Type} (p : String → Bool) (k : String)
    (l : List (String × β)) (hp : p k = true) :
    lookupF k (l.filter (fun e => p e.1)) = lookupF k l := by
  induction l with
  | nil => rfl
  | cons e es ih =>
    simp only [List.filter_cons]
    by_cases hk : e.1 = k
    · have hpe : p e.1 = true := by rw [hk]; exact hp
      rw [if_pos hpe]
      simp [lookupF, hk, ih]
    · cases hpe : p e.1
      · simp [lookupF, hk, ih]
      · simp [lookupF, hk, ih]

/-! ### Store and merge lemmas -/

theorem storeGet_storeSet_self (s : Store) (k : String) (d : Doc) :
    storeGet (storeSet s k d) k = some d := by
  unfold storeGet storeSet
  by_cases h : hasKey k s = true
  · rw [if_pos h, lookupF_map_overwrite, if_pos rfl]
    rw [hasKey_eq_isSome] at h
    obtain ⟨w, hw⟩ := Option.isSome_iff_exists.mp h
    simp [hw]
  · rw [if_neg h, lookupF_append]
    have h' : lookupF k s = none := by
      cases hl : lookupF k s with
      | none => rfl
      | some w => rw [hasKey_eq_isSome, hl] at h; simp at h
    simp [h', Option.or, lookupF]

theorem lookupF_mergeDocs_map (d u : Doc) (f : String) :
    lookupF f (d.map (fun e =>
      match lookupF e.1 u with
      | some v => (e.1, v)
      | none => e)) =
      match lookupF f d with
      | none => none
      | some w => some ((lookupF f u).getD w) := by
  induction d with
  | nil => rfl
  | cons e es ih =>
    obtain ⟨k, w⟩ := e
    by_cases hk : k = f
    · subst hk
      cases hu : lookupF k u <;> simp [lookupF, hu]
    · cases hu : lookupF k u <;> simp [lookupF, hk, hu, ih]

theorem lookupF_mergeDocs_tail_of_hasKey (d u : Doc) (f : String)
    (h : hasKey f d = true) :
    lookupF f (u.filter (fun e => !hasKey e.1 d)) = none := by
  induction u with
  | nil => rfl
  | cons e es ih =>
    simp only [List.filter_cons]
    by_cases hk : e.1 = f
    · simp [hk, h, ih]
    · cases hke : hasKey e.1 d
      · simp [lookupF, hk, ih]
      · simp [ih]

theorem lookupF_mergeDocs_tail_of_not_hasKey (d u : Doc) (f : String)
    (h : hasKey f d = false) :
    lookupF f (u.filter (fun e => !hasKey e.1 d)) = lookupF f u := by
  induction u with
  | nil => rfl
  | cons e es ih =>
    simp only [List.filter_cons]
    by_cases hk : e.1 = f
    · simp [hk, h, lookupF, ih]
    · cases hke : hasKey e.1 d
      · simp [hke, lookupF, hk, ih]
      · simp [hke, lookupF, hk, ih]

/-- Shallow-merge field characterization: a field supplied by the update
takes the update's value; every other field keeps the base document's
value. -/
theorem lookupF_mergeDocs (d u : Doc) (f : String) :
    lookupF f (mergeDocs d u) = (lookupF f u).or (lookupF f d) := by
  unfold mergeDocs
  rw [lookupF_append, lookupF_mergeDocs_map]
  cases hd : lookupF f d with
  | none =>
    have hk : hasKey f d = false := by simp [hasKey_eq_isSome, hd]
    rw [lookupF_mergeDocs_tail_of_not_hasKey d u f hk]
    cases hu : lookupF f u <;> simp [Option.or, hu]
  | some w =>
    have hk : hasKey f d = true := by simp [hasKey_eq_isSome, hd]
    rw [lookupF_mergeDocs_tail_of_hasKey d u f hk]
    cases hu : lookupF f u <;> simp [Option.or, hu]

theorem mergeDocs_nil (d : Doc) : mergeDocs d [] = d := by
  unfold mergeDocs
  simp [lookupF]

theorem lookupF_assignField (d : Doc) (f g : String) (v : Value) :
    lookupF g (assignField d f v) = if g = f then some v else lookupF g d := by
  unfold assignField
  by_cases h : hasKey f d = true
  · rw [if_pos h, lookupF_map_overwrite]
    by_cases hgf : g = f
    · subst hgf
      simp only [if_pos rfl]
      rw [hasKey_eq_isSome] at h
      obtain ⟨w, hw⟩ := Option.isSome_iff_exists.mp h
      simp [hw]
    · simp [hgf]
  · rw [if_neg h, lookupF_append]
    by_cases hgf : g = f
    · subst hgf
      have h' : lookupF g d = none := by
        cases hl : lookupF g d with
        | none => rfl
        | some w => rw [hasKey_eq_isSome, hl] at h; simp at h
      simp [h', Option.or, lookupF]
    · have hfg : ¬ f = g := fun hh => hgf hh.symm
      cases hl : lookupF g d <;> simp [hl, Option.or, lookupF, hfg, hgf]

/-! ### JS comparison lemmas: `undefined` fails every ordering operator -/

theorem jsNumCmp_none_left (b : Option Int) : jsNumCmp none b = none := rfl

theorem jsNumCmp_none_right (a : Option Int) : jsNumCmp a none = none := by
  cases a <;> rfl

theorem jsCmpLt_none_left (y : Option Value) : jsCmpLt none y = none := rfl

theorem jsCmpLt_none_right (x : Option Value) : jsCmpLt x none = none := by
  unfold jsCmpLt
  have hc : (isStrV x && isStrV none) = false := by
    cases hx : isStrV x <;> rfl
  rw [hc]
  simp [jsNumCmp_none_right]

theorem jsLt_undef (y : Option Value) : jsLt none y = false := by
  simp [jsLt, jsCmpLt_none_left]

theorem jsGt_undef (y : Option Value) : jsGt none y = false := by
  simp [jsGt, jsCmpLt_none_right]

theorem jsLe_undef (y : Option Value) : jsLe none y = false := by
  simp [jsLe, jsCmpLt_none_right]

theorem jsGe_undef (y : Option Value) : jsGe none y = false := by
  simp [jsGe, jsCmpLt_none_left]

/-! ### find? as head-of-filter -/

theorem find?_eq_head_filter {α : Type} (p : α → Bool) (l : List α) :
    l.find? p = (l.filter p).head? := by
  induction l with
  | nil => rfl
  | cons a t ih =>
    cases h : p a
    · rw [List.find?_cons_of_neg _ (by simp [h]), List.filter_cons, h]
      rw [if_neg (by simp)]
      exact ih
    · rw [List.find?_cons_of_pos _ h, List.filter_cons, h]
      rfl

/-! ### Operator-key classification -/

/-- Whether an operator key is one of the seven recognized operators. -/
def knownOp (k : String) : Bool :=
  decide (k = "$gt" ∨ k = "$gte" ∨ k = "$lt" ∨ k = "$lte" ∨
    k = "$in" ∨ k = "$nin" ∨ k = "$ne")

theorem evalOp_unknown (value : Option Value) (k : String) (operand : Value)
    (h : knownOp k = false) : evalOp value k operand = false := by
  unfold knownOp at h
  simp only [decide_eq_false_iff_not, not_or] at h
  obtain ⟨h1, h2, h3, h4, h5, h6, h7⟩ := h
  simp [evalOp, h1, h2, h3, h4, h5, h6, h7]

theorem evalOp_undef_ordering (k : String) (operand : Value)
    (h : k = "$gt" ∨ k = "$gte" ∨ k = "$lt" ∨ k = "$lte") :
    evalOp none k operand = false := by
  rcases h with h | h | h | h <;> subst h <;>
    simp [evalOp, jsGt_undef, jsGe_undef, jsLt_undef, jsLe_undef]

theorem matchOps_none_of_ordering (l : List (String × Value)) (k : String) (v : Value)
    (hmem : (k, v) ∈ l)
    (hord : k = "$gt" ∨ k = "$gte" ∨ k = "$lt" ∨ k = "$lte") :
    RedisModel.matchOps none l = false := by
  obtain ⟨w, hw⟩ := lookupF_mem_isSome k v l hmem
  rcases hord with h | h | h | h <;> subst h <;>
    simp [RedisModel.matchOps, checkOp, hw, jsGt_undef, jsGe_undef, jsLt_undef, jsLe_undef]

theorem matchesQuery_false_of_elem (d : Doc) (q : Query) (f : String) (c : Cond)
    (hmem : (f, c) ∈ q) (hc : matchCond (getField d f) c = false) :
    Model.matchesQuery d q = false := by
  cases hq : Model.matchesQuery d q with
  | false => rfl
  | true =>
    exfalso
    unfold Model.matchesQuery at hq
    have := List.all_eq_true.mp hq (f, c) hmem
    rw [hc] at this
    cases this

theorem matches_false_of_ops_elem (d : Doc) (q : Query) (f : String)
    (l : List (String × Value)) (hmem : (f, Cond.ops l) ∈ q)
    (hc : RedisModel.matchOps (getField d f) l = false) :
    RedisModel.matches d q = false := by
  cases hq : RedisModel.matches d q with
  | false => rfl
  | true =>
    exfalso
    unfold RedisModel.matches at hq
    have := List.all_eq_true.mp hq (f, Cond.ops l) hmem
    simp only [hc] at this
    cases this

theorem matchCond_false_of_op (x : Option Value) (l : List (String × Value))
    (k : String) (v : Value) (hk : (k, v) ∈ l) (hop : evalOp x k v = false) :
    matchCond x (Cond.ops l) = false := by
  cases hall : matchCond x (Cond.ops l) with
  | false => rfl
  | true =>
    exfalso
    unfold matchCond at hall
    have := List.all_eq_true.mp hall (k, v) hk
    rw [hop] at this
    cases this

/-! ### Claim theorems -/

/-- C1: a document appears in the materialized result of `find(Q)` iff it
is stored under the collection's key prefix and the predicate evaluator
accepts it for Q; the empty query matches every document; a fresh
builder's `exec` hands the fetched results back unchanged, so these are
exactly the documents `find(Q)` produces. -/
theorem C1_find_iff_matches (name : String) (s : Store) (q : Query) (d : Doc) :
    (d ∈ Model.findDocs name s q ↔
      (∃ k, (k, d) ∈ s ∧ strHasPrefix (name ++ ":") k = true) ∧
        Model.matchesQuery d q = true)
    ∧ Model.matchesQuery d [] = true
    ∧ QueryBuilder.exec QueryBuilder.init (Model.findDocs name s q)
        = Model.findDocs name s q := by
  refine ⟨?_, rfl, rfl⟩
  unfold Model.findDocs scanDocs
  rw [List.mem_filter]
  constructor
  · rintro ⟨hmem, hmatch⟩
    rw [List.mem_map] at hmem
    obtain ⟨e, he, hed⟩ := hmem
    rw [List.mem_filter] at he
    refine ⟨⟨e.1, ?_, he.2⟩, hmatch⟩
    rw [← hed]
    exact he.1
  · rintro ⟨⟨k, hks, hpre⟩, hmatch⟩
    refine ⟨?_, hmatch⟩
    rw [List.mem_map]
    exact ⟨(k, d), List.mem_filter.mpr ⟨hks, hpre⟩, rfl⟩

/-- C2: `exec()` applies sort, then skip, then limit, in that fixed
order, and its output is invariant to the syntactic order in which
`.sort`, `.skip` and `.limit` were chained before it. -/
theorem C2_exec_fixed_order (S : List (String × Int)) (k n : Int) (res : List Doc) :
    (((QueryBuilder.init.sort S).skip k).limit n).exec res
        = jsSliceTo (if k > 0 then (jsSortBy S res).drop k.toNat else jsSortBy S res) n
    ∧ (((QueryBuilder.init.sort S).limit n).skip k).exec res
        = (((QueryBuilder.init.sort S).skip k).limit n).exec res
    ∧ (((QueryBuilder.init.skip k).sort S).limit n).exec res
        = (((QueryBuilder.init.sort S).skip k).limit n).exec res
    ∧ (((QueryBuilder.init.skip k).limit n).sort S).exec res
        = (((QueryBuilder.init.sort S).skip k).limit n).exec res
    ∧ (((QueryBuilder.init.limit n).sort S).skip k).exec res
        = (((QueryBuilder.init.sort S).skip k).limit n).exec res
    ∧ (((QueryBuilder.init.limit n).skip k).sort S).exec res
        = (((QueryBuilder.init.sort S).skip k).limit n).exec res :=
  ⟨rfl, rfl, rfl, rfl, rfl, rfl⟩

/-- C9: in both variants `findOne(Q)` is the head of `find(Q)`'s
materialized result — the first scanned document satisfying the predicate,
or `none` when the result is empty; both are pure functions of the store. -/
theorem C9_findOne_is_head (name : String) (s : Store) (q : Query) :
    Model.findOne name s q = (Model.findDocs name s q).head?
    ∧ RedisModel.findOne name s q = (RedisModel.find name s q).head? := by
  constructor
  · show ((Model.findDocs name s q).take 1).head? = _
    cases Model.findDocs name s q <;> rfl
  · exact find?_eq_head_filter _ _

/-- C10: repeated `skip`/`limit`/`sort` calls on a builder overwrite the
recorded intent — the last call wins for `exec`'s output. -/
theorem C10_last_call_wins (b : QueryBuilder) (m n : Int)
    (S1 S2 : List (String × Int)) (res : List Doc) :
    ((b.skip m).skip n).exec res = (b.skip n).exec res
    ∧ ((b.limit m).limit n).exec res = (b.limit n).exec res
    ∧ ((b.sort S1).sort S2).exec res = (b.sort S2).exec res :=
  ⟨rfl, rfl, rfl⟩

/-- C3 counterexample: in the RedisModel variant the operator object
with single key `$foo` — a key outside the recognized set — still
matches the document: `_matches` reads only the seven `$`-fields and
silently ignores unknown keys, so the evaluator there does not return
false as the claim states. -/
theorem C3_counterexample :
    RedisModel.matches [("id", .scalar (.str "1")), ("age", .scalar (.num 5))]
      [("age", .ops [("$foo", .scalar (.num 1))])] = true := by decide

/-- C3 amended: the policy is variant-dependent.  The Model evaluator
(part_000) is fail-closed: an operator object containing any key outside
the recognized seven makes the evaluator return false for the whole
document.  The RedisModel evaluator (part_001) is fail-open: it consults
only the recognized operator keys, so its verdict is unchanged when all
unrecognized keys are removed from the operator object. -/
theorem C3_amended_policy (d : Doc) (q : Query) (f : String)
    (l : List (String × Value)) (k : String) (v : Value)
    (hmem : (f, Cond.ops l) ∈ q) (hk : (k, v) ∈ l) (hunk : knownOp k = false) :
    Model.matchesQuery d q = false
    ∧ ∀ (x : Option Value) (ops : List (String × Value)),
        RedisModel.matchOps x (ops.filter (fun e => knownOp e.1))
          = RedisModel.matchOps x ops := by
  constructor
  · exact matchesQuery_false_of_elem d q f (Cond.ops l) hmem
      (matchCond_false_of_op _ l k v hk (evalOp_unknown _ k v hunk))
  · intro x ops
    unfold RedisModel.matchOps checkOp
    rw [lookupF_filter_of_pred knownOp "$gt" ops (by decide),
      lookupF_filter_of_pred knownOp "$gte" ops (by decide),
      lookupF_filter_of_pred knownOp "$lt" ops (by decide),
      lookupF_filter_of_pred knownOp "$lte" ops (by decide),
      lookupF_filter_of_pred knownOp "$in" ops (by decide),
      lookupF_filter_of_pred knownOp "$nin" ops (by decide),
      lookupF_filter_of_pred knownOp "$ne" ops (by decide)]

/-- Witness for C3's amended theorem at a concrete document and query. -/
theorem C3_amended_policy_witness :
    Model.matchesQuery [("age", .scalar (.num 5))]
      [("age", .ops [("$foo", .scalar (.num 1))])] = false :=
  (C3_amended_policy [("age", .scalar (.num 5))]
    [("age", .ops [("$foo", .scalar (.num 1))])] "age"
    [("$foo", .scalar (.num 1))] "$foo" (.scalar (.num 1))
    (by decide) (by decide) (by decide)).1

/-- C8: a field absent from the document fails every ordering operator:
whenever the query binds field `f` to an operator object containing an
ordering operator and the document lacks `f`, both predicate evaluators
reject the document.  (The hypothesis is weaker than the claim's
"using only ordering operators": one ordering operator suffices.) -/
theorem C8_absent_field_ordering (d : Doc) (q : Query) (f : String)
    (l : List (String × Value)) (k : String) (v : Value)
    (habs : getField d f = none) (hmem : (f, Cond.ops l) ∈ q) (hk : (k, v) ∈ l)
    (hord : k = "$gt" ∨ k = "$gte" ∨ k = "$lt" ∨ k = "$lte") :
    Model.matchesQuery d q = false ∧ RedisModel.matches d q = false := by
  constructor
  · refine matchesQuery_false_of_elem d q f (Cond.ops l) hmem ?_
    refine matchCond_false_of_op _ l k v hk ?_
    rw [habs]
    exact evalOp_undef_ordering k v hord
  · refine matches_false_of_ops_elem d q f l hmem ?_
    rw [habs]
    exact matchOps_none_of_ordering l k v hk hord

/-- Witness for C8 at a concrete document with a missing `age` field. -/
theorem C8_absent_field_ordering_witness :
    Model.matchesQuery [("name", .scalar (.str "A"))]
      [("age", .ops [("$gte", .scalar (.num 18))])] = false
    ∧ RedisModel.matches [("name", .scalar (.str "A"))]
      [("age", .ops [("$gte", .scalar (.num 18))])] = false :=
  C8_absent_field_ordering [("name", .scalar (.str "A"))]
    [("age", .ops [("$gte", .scalar (.num 18))])] "age"
    [("$gte", .scalar (.num 18))] "$gte" (.scalar (.num 18))
    (by decide) (by decide) (by decide) (by decide)

/-- C4: for a query with a matching stored document (holding, per the
data-model invariant, a non-empty string id), `findOneAndUpdate` with
`returnNew` false returns the pre-update document, with `returnNew` true
the merged document; in both cases the store afterwards holds the shallow
merge of the pre-update document with the partial under that document's
key. -/
theorem findOneAndUpdate_eq (name : String) (s : Store) (q : Query) (u : Doc)
    (rn : Bool) (d : Doc) (i : String)
    (h : RedisModel.findOne name s q = some d) (hid : docIdStr d = some i) :
    RedisModel.findOneAndUpdate name s q u rn =
      (if rn then some (mergeDocs d u) else some d,
       storeSet s (modelKey name i) (mergeDocs d u)) := by
  unfold RedisModel.findOneAndUpdate
  rw [h]
  show (match docIdStr d with
    | none => (none, s)
    | some i => (if rn then some (mergeDocs d u) else some d,
        storeSet s (modelKey name i) (mergeDocs d u))) = _
  rw [hid]

theorem C4_findOneAndUpdate_returnNew (name : String) (s : Store) (q : Query)
    (u : Doc) (d : Doc) (i : String)
    (h : RedisModel.findOne name s q = some d) (hid : docIdStr d = some i) :
    (RedisModel.findOneAndUpdate name s q u false).1 = some d
    ∧ (RedisModel.findOneAndUpdate name s q u true).1 = some (mergeDocs d u)
    ∧ storeGet (RedisModel.findOneAndUpdate name s q u false).2 (modelKey name i)
        = some (mergeDocs d u)
    ∧ (RedisModel.findOneAndUpdate name s q u true).2
        = (RedisModel.findOneAndUpdate name s q u false).2 := by
  rw [findOneAndUpdate_eq name s q u false d i h hid,
    findOneAndUpdate_eq name s q u true d i h hid]
  exact ⟨rfl, rfl, storeGet_storeSet_self _ _ _, rfl⟩

/-- Witness for C4: the spec scenario — Bob (age 30) updated to age 35
with `returnNew: false` yields the pre-update document while the store
holds the merged one. -/
theorem C4_findOneAndUpdate_returnNew_witness :
    (RedisModel.findOneAndUpdate "User"
        [("User:1", [("id", .scalar (.str "1")), ("name", .scalar (.str "Bob")),
          ("age", .scalar (.num 30))])]
        [("name", .lit (.scalar (.str "Bob")))]
        [("age", .scalar (.num 35))] false).1
      = some [("id", .scalar (.str "1")), ("name", .scalar (.str "Bob")),
          ("age", .scalar (.num 30))]
    ∧ storeGet (RedisModel.findOneAndUpdate "User"
        [("User:1", [("id", .scalar (.str "1")), ("name", .scalar (.str "Bob")),
          ("age", .scalar (.num 30))])]
        [("name", .lit (.scalar (.str "Bob")))]
        [("age", .scalar (.num 35))] false).2 (modelKey "User" "1")
      = some [("id", .scalar (.str "1")), ("name", .scalar (.str "Bob")),
          ("age", .scalar (.num 35))] := by
  have h := C4_findOneAndUpdate_returnNew "User"
    [("User:1", [("id", .scalar (.str "1")), ("name", .scalar (.str "Bob")),
      ("age", .scalar (.num 30))])]
    [("name", .lit (.scalar (.str "Bob")))]
    [("age", .scalar (.num 35))]
    [("id", .scalar (.str "1")), ("name", .scalar (.str "Bob")),
      ("age", .scalar (.num 30))] "1"
    (by decide) (by decide)
  refine ⟨h.1, ?_⟩
  rw [h.2.2.1]
  decide

/-- C5: `update(id, partial)` with no stored entry returns `none` and
leaves the whole store unchanged; with a stored entry it stores and
returns the shallow merge, in which a field supplied by the partial takes
the partial's value and every other field keeps the stored document's
value. -/
theorem C5_update_semantics (name : String) (s : Store) (id : String) (data : Doc) :
    (storeGet s (modelKey name id) = none → Model.update name s id data = (none, s))
    ∧ ∀ d, storeGet s (modelKey name id) = some d →
        (Model.update name s id data).1 = some (mergeDocs d data)
        ∧ (Model.update name s id data).2
            = storeSet s (modelKey name id) (mergeDocs d data)
        ∧ storeGet (Model.update name s id data).2 (modelKey name id)
            = some (mergeDocs d data)
        ∧ ∀ f, lookupF f (mergeDocs d data) = (lookupF f data).or (lookupF f d) := by
  constructor
  · intro h
    unfold Model.update
    rw [h]
  · intro d h
    have h1 : (Model.update name s id data).1 = some (mergeDocs d data) := by
      unfold Model.update
      rw [h]
    have h2 : (Model.update name s id data).2
        = storeSet s (modelKey name id) (mergeDocs d data) := by
      unfold Model.update
      rw [h]
    refine ⟨h1, h2, ?_, fun f => lookupF_mergeDocs d data f⟩
    rw [h2]
    exact storeGet_storeSet_self _ _ _

/-- Witness for C5: a missing id returns `none` without touching the
store; a present id yields the merged document. -/
theorem C5_update_semantics_witness :
    Model.update "User" [] "9" [("age", .scalar (.num 1))] = (none, [])
    ∧ (Model.update "User"
        [("User:1", [("_id", .scalar (.str "1")), ("age", .scalar (.num 30)),
          ("city", .scalar (.str "Rome"))])]
        "1" [("age", .scalar (.num 31))]).1
      = some [("_id", .scalar (.str "1")), ("age", .scalar (.num 31)),
          ("city", .scalar (.str "Rome"))] := by
  constructor
  · exact (C5_update_semantics "User" [] "9" [("age", .scalar (.num 1))]).1 (by decide)
  · have h := ((C5_update_semantics "User"
      [("User:1", [("_id", .scalar (.str "1")), ("age", .scalar (.num 30)),
        ("city", .scalar (.str "Rome"))])]
      "1" [("age", .scalar (.num 31))]).2
      [("_id", .scalar (.str "1")), ("age", .scalar (.num 30)),
        ("city", .scalar (.str "Rome"))] (by decide)).1
    rw [h]
    decide

/-- C6: `update` of an existing id with the empty partial leaves the stored
document unchanged: the document decoded from the key after the call is
the one that was stored before it (and it is also the returned value). -/
theorem C6_update_empty_idempotent (name : String) (s : Store) (id : String) (d : Doc)
    (h : storeGet s (modelKey name id) = some d) :
    storeGet (Model.update name s id []).2 (modelKey name id) = some d
    ∧ (Model.update name s id []).1 = some d := by
  have h2 : (Model.update name s id []).2
      = storeSet s (modelKey name id) (mergeDocs d []) := by
    unfold Model.update
    rw [h]
  have h1 : (Model.update name s id []).1 = some (mergeDocs d []) := by
    unfold Model.update
    rw [h]
  constructor
  · rw [h2, mergeDocs_nil]
    exact storeGet_storeSet_self _ _ _
  · rw [h1, mergeDocs_nil]

/-- Witness for C6 at a concrete stored document. -/
theorem C6_update_empty_idempotent_witness :
    storeGet (Model.update "User"
        [("User:1", [("_id", .scalar (.str "1")), ("age", .scalar (.num 30))])]
        "1" []).2 (modelKey "User" "1")
      = some [("_id", .scalar (.str "1")), ("age", .scalar (.num 30))] :=
  (C6_update_empty_idempotent "User"
    [("User:1", [("_id", .scalar (.str "1")), ("age", .scalar (.num 30))])]
    "1" [("_id", .scalar (.str "1")), ("age", .scalar (.num 30))] (by decide)).1

theorem docIdFalsy_ne_empty (d : Doc) (t : String) (h : docIdFalsy d = some t) :
    t ≠ "" := by
  unfold docIdFalsy at h
  rcases hg : getField d "id" with _ | v <;> rw [hg] at h
  · cases h
  · rcases v with sc | xs
    · rcases sc with _ | b | n | s
      · cases h
      · cases h
      · cases h
      · by_cases hs : s = ""
        · simp [hs] at h
        · simp [hs] at h
          rw [← h]
          exact hs
    · cases h

theorem lookupF_schema_foldl (data : Doc) (fields : List String) (d0 : Doc)
    (g : String) (hg : g ∉ fields) :
    lookupF g (fields.foldl
      (fun d f => assignField d f ((getField data f).getD (.scalar .null))) d0)
      = lookupF g d0 := by
  induction fields generalizing d0 with
  | nil => rfl
  | cons f fs ih =>
    have hgf : ¬ g = f := fun hh => hg (hh ▸ List.mem_cons_self f fs)
    rw [List.foldl_cons, ih _ (fun hh => hg (List.mem_cons_of_mem f hh)),
      lookupF_assignField, if_neg hgf]

/-- C7 counterexample: part_001's create computes `id = doc.id ?? uuid()`;
nullish coalescing keeps a caller-supplied empty-string id, so the
returned document — which is also the document persisted under the key
`"User:"` — carries the empty string in its identity field, violating the
claimed non-emptiness for every accepted input. -/
theorem C7_counterexample :
    (RedisModel.create "User" []
        [("id", .scalar (.str "")), ("name", .scalar (.str "A"))] "u-1").1
      = [("id", .scalar (.str "")), ("name", .scalar (.str "A"))]
    ∧ storeGet (RedisModel.create "User" []
        [("id", .scalar (.str "")), ("name", .scalar (.str "A"))] "u-1").2 "User:"
      = some [("id", .scalar (.str "")), ("name", .scalar (.str "A"))] := by
  decide

/-- C7 amended: every variant persists and returns a document whose
identity field is a non-empty string, provided a caller-supplied id (when
the variant consults it) is absent, null, or non-empty.  Part_000's
create always uses the freshly generated id (as long as the schema field
list does not itself declare `_id`); the src variant's `doc.id || uuid()`
replaces a falsy — hence empty — id unconditionally; part_001's
`doc.id ?? uuid()` keeps any present string id, so only there the
non-empty hypothesis on the supplied id is needed (the counterexample
shows it cannot be dropped). -/
theorem C7_amended_identity (name : String) (schemaFields : List String)
    (s : Store) (data doc : Doc) (fresh : String)
    (hf : fresh ≠ "")
    (hid : ∀ t, docIdNullish doc = some t → t ≠ "")
    (hschema : "_id" ∉ schemaFields) :
    (∃ i, i ≠ "" ∧ getField (RedisModel.create name s doc fresh).1 "id"
        = some (.scalar (.str i)))
    ∧ (∃ i, i ≠ "" ∧ getField (RedisModelSrc.create name s doc fresh).1 "id"
        = some (.scalar (.str i)))
    ∧ getField (Model.create name schemaFields s data fresh).1 "_id"
        = some (.scalar (.str fresh)) := by
  refine ⟨?_, ?_, ?_⟩
  · cases hn : docIdNullish doc with
    | none =>
      refine ⟨fresh, hf, ?_⟩
      show lookupF "id" (mergeDocs doc
        [("id", .scalar (.str ((docIdNullish doc).getD fresh)))]) = _
      rw [hn, lookupF_mergeDocs]
      simp [lookupF, Option.or]
    | some t =>
      refine ⟨t, hid t hn, ?_⟩
      show lookupF "id" (mergeDocs doc
        [("id", .scalar (.str ((docIdNullish doc).getD fresh)))]) = _
      rw [hn, lookupF_mergeDocs]
      simp [lookupF, Option.or]
  · cases hn : docIdFalsy doc with
    | none =>
      refine ⟨fresh, hf, ?_⟩
      show lookupF "id" (mergeDocs doc
        [("id", .scalar (.str ((docIdFalsy doc).getD fresh)))]) = _
      rw [hn, lookupF_mergeDocs]
      simp [lookupF, Option.or]
    | some t =>
      refine ⟨t, docIdFalsy_ne_empty doc t hn, ?_⟩
      show lookupF "id" (mergeDocs doc
        [("id", .scalar (.str ((docIdFalsy doc).getD fresh)))]) = _
      rw [hn, lookupF_mergeDocs]
      simp [lookupF, Option.or]
  · show lookupF "_id" (schemaFields.foldl
      (fun d f => assignField d f ((getField data f).getD (.scalar .null)))
      [("_id", .scalar (.str fresh))]) = _
    rw [lookupF_schema_foldl data schemaFields _ "_id" hschema]
    simp [lookupF]

/-- Witness for C7's amended theorem: creates with no supplied id and a
schema declaring `name` and `age` produce non-empty identities. -/
theorem C7_amended_identity_witness :
    (∃ i, i ≠ "" ∧ getField (RedisModel.create "User" []
        [("name", .scalar (.str "A"))] "u-1").1 "id"
        = some (.scalar (.str i)))
    ∧ (∃ i, i ≠ "" ∧ getField (RedisModelSrc.create "User" []
        [("name", .scalar (.str "A"))] "u-1").1 "id"
        = some (.scalar (.str i)))
    ∧ getField (Model.create "User" ["name", "age"] []
        [("name", .scalar (.str "A"))] "u-1").1 "_id"
        = some (.scalar (.str "u-1")) :=
  C7_amended_identity "User" ["name", "age"] [] [("name", .scalar (.str "A"))]
    [("name", .scalar (.str "A"))] "u-1" (by decide)
    (fun t ht => by
      have : docIdNullish [("name", Value.scalar (.str "A"))] = none := by decide
      rw [this] at ht
      cases ht)
    (by decide)

example : Model.matchesQuery [("age", .scalar (.num 5))] [] = true := by decide

example :
    Model.matchesQuery [("age", .scalar (.num 5))]
      [("age", .ops [("$gte", .scalar (.num 3)), ("$lt", .scalar (.num 9))])] = true := by
  decide

example :
    Model.matchesQuery [("age", .scalar (.num 5))]
      [("age", .ops [("$foo", .scalar (.num 1))])] = false := by decide

example :
    RedisModel.matches [("age", .scalar (.num 5))]
      [("age", .ops [("$foo", .scalar (.num 1))])] = true := by decide

example :
    Model.matchesQuery [("name", .scalar (.str "A"))]
      [("age", .ops [("$gt", .scalar (.num 1))])] = false := by decide

end RedisOrmLite
